import Mathlib

/-!
Verification of the Incident Lens AI media core against its specification.

The definitions below are a shallow embedding of the TypeScript source:

* `src/services/geminiService.ts` — `extractFramesFromVideo`, `bufferToWav`,
  `extractAudioFromVideo`, and the part-assembly of `analyzeIncidentStream`;
* `src/components/AnalysisDashboard.tsx` — `getCoords`, `handleMouseDown`,
  `handleMouseMove`, `handleMouseUp`, `captureRoi`, the canvas sizing effect
  and the tool-mode toggle buttons.

Numbers are modelled with exact rationals.  Where the JavaScript semantics of
division by zero / infinity / NaN matter (the frame sampler's interval
computation), arithmetic is carried out in `JSNum`, an extension of `ℚ` with
`posInf`, `negInf` and `nan` following the IEEE-754 rules for those special
values (the rational core is exact; `-0` is identified with `0`).
-/

/-- JavaScript number values relevant to the embedded code: an exact finite
value, the two infinities, and NaN. -/
inductive JSNum where
  | fin (q : ℚ)
  | posInf
  | negInf
  | nan
deriving DecidableEq, Repr

namespace JSNum

/-- IEEE negation. -/
def jneg : JSNum → JSNum
  | .fin a => .fin (-a)
  | .posInf => .negInf
  | .negInf => .posInf
  | .nan => .nan

/-- IEEE addition (NaN propagates; `∞ + (−∞) = NaN`). -/
def jadd : JSNum → JSNum → JSNum
  | .fin a, .fin b => .fin (a + b)
  | .fin _, .posInf => .posInf
  | .fin _, .negInf => .negInf
  | .posInf, .fin _ => .posInf
  | .negInf, .fin _ => .negInf
  | .posInf, .posInf => .posInf
  | .negInf, .negInf => .negInf
  | .posInf, .negInf => .nan
  | .negInf, .posInf => .nan
  | _, _ => .nan

/-- IEEE subtraction, `a - b = a + (-b)`. -/
def jsub (a b : JSNum) : JSNum := jadd a (jneg b)

/-- IEEE multiplication (`±∞ · 0 = NaN`). -/
def jmul : JSNum → JSNum → JSNum
  | .fin a, .fin b => .fin (a * b)
  | .fin a, .posInf => if a = 0 then .nan else if 0 < a then .posInf else .negInf
  | .fin a, .negInf => if a = 0 then .nan else if 0 < a then .negInf else .posInf
  | .posInf, .fin b => if b = 0 then .nan else if 0 < b then .posInf else .negInf
  | .negInf, .fin b => if b = 0 then .nan else if 0 < b then .negInf else .posInf
  | .posInf, .posInf => .posInf
  | .posInf, .negInf => .negInf
  | .negInf, .posInf => .negInf
  | .negInf, .negInf => .posInf
  | _, _ => .nan

/-- IEEE division: a nonzero finite value divided by zero gives a signed
infinity, `0 / 0 = NaN`, `x / ±∞ = 0`, `±∞ / ±∞ = NaN`. -/
def jdiv : JSNum → JSNum → JSNum
  | .fin a, .fin b =>
      if b = 0 then (if a = 0 then .nan else if 0 < a then .posInf else .negInf)
      else .fin (a / b)
  | .fin _, .posInf => .fin 0
  | .fin _, .negInf => .fin 0
  | .posInf, .fin b => if 0 ≤ b then .posInf else .negInf
  | .negInf, .fin b => if 0 ≤ b then .negInf else .posInf
  | _, _ => .nan

/-- A JavaScript number is finite exactly when it is neither infinite nor NaN. -/
def isFinite : JSNum → Bool
  | .fin _ => true
  | _ => false

end JSNum

open JSNum

/-- Embeds the timestamp computation of `extractFramesFromVideo`
(src/services/geminiService.ts, lines 18-45):
`start = duration * 0.1`, `end = duration * 0.9`,
`usableDuration = end - start`, `interval = usableDuration / (numFrames - 1)`,
and the loop body `time = start + interval * i` for `i = 0 .. numFrames-1`. -/
def frameTimesJS (duration : JSNum) (numFrames : ℕ) : List JSNum :=
  let start := jmul duration (.fin (0.1 : ℚ))
  let endT := jmul duration (.fin (0.9 : ℚ))
  let usableDuration := jsub endT start
  let interval := jdiv usableDuration (jsub (.fin (numFrames : ℚ)) (.fin 1))
  (List.range numFrames).map (fun (i : ℕ) => jadd start (jmul interval (.fin (i : ℚ))))

/-- One extracted frame: the compressed raster (abstracted) together with the
recorded timestamp (`frames.push({data: ..., timestamp: time})`). -/
structure VideoFrame' where
  data : ℕ
  timestamp : JSNum
deriving DecidableEq, Repr

/-- Embeds `extractFramesFromVideo`.  The decoder is abstracted by `achieved`
(the frame the seek actually lands on, which may snap to a keyframe) and
`render` (drawing the current frame onto the half-resolution canvas and
JPEG-compressing it).  The code records `timestamp: time`, i.e. the requested
seek time, while the drawn image comes from the achieved frame. -/
def extractFramesFromVideo (achieved : JSNum → JSNum) (render : JSNum → ℕ)
    (duration : JSNum) (numFrames : ℕ) : List VideoFrame' :=
  (frameTimesJS duration numFrames).map
    (fun time => { data := render (achieved time), timestamp := time })

/-- Follows the spec's words (§4.1, §8): timestamps evenly spaced over the
window `[0.1·d, 0.9·d]`, `t_i = 0.1·d + i·(0.8·d/(N−1))`.  Compared with the
source-derived `frameTimesJS`. -/
def specFrameTimes (d : ℚ) (n : ℕ) : List ℚ :=
  (List.range n).map (fun (i : ℕ) => (0.1 : ℚ) * d + (i : ℚ) * ((0.8 : ℚ) * d / ((n : ℚ) - 1)))

lemma frameTimesJS_eq_spec (d : ℚ) (n : ℕ) (hn : 2 ≤ n) :
    frameTimesJS (.fin d) n = (specFrameTimes d n).map JSNum.fin := by
  have hcast : (2 : ℚ) ≤ (n : ℚ) := by exact_mod_cast hn
  have hne : ¬((n : ℚ) + -1 = 0) := by intro h; linarith
  unfold frameTimesJS specFrameTimes
  simp only [jmul, jsub, jneg, jadd, jdiv, if_neg hne, List.map_map]
  refine List.map_congr_left ?_
  intro i _
  simp only [Function.comp_apply]
  congr 1
  have h9 : (0.9 : ℚ) = 9 / 10 := by norm_num
  have h1 : (0.1 : ℚ) = 1 / 10 := by norm_num
  have h8 : (0.8 : ℚ) = 8 / 10 := by norm_num
  rw [h9, h1, h8, sub_eq_add_neg]
  ring

lemma specFrameTimes_chain_lt (d : ℚ) (n : ℕ) (hd : 0 < d) (hn : 2 ≤ n) :
    List.Chain' (· < ·) (specFrameTimes d n) := by
  have hn1 : (0 : ℚ) < (n : ℚ) - 1 := by
    have : (2 : ℚ) ≤ (n : ℚ) := by exact_mod_cast hn
    linarith
  have hc : (0 : ℚ) < (0.8 : ℚ) * d / ((n : ℚ) - 1) := by
    apply div_pos _ hn1
    have : (0 : ℚ) < (0.8 : ℚ) := by norm_num
    exact mul_pos this hd
  obtain ⟨k, rfl⟩ : ∃ k, n = k + 1 := ⟨n - 1, by omega⟩
  rw [specFrameTimes, List.chain'_map, List.chain'_range_succ]
  intro m _
  have hlt : ((m : ℚ)) < ((m + 1 : ℕ) : ℚ) := by exact_mod_cast Nat.lt_succ_self m
  have := mul_lt_mul_of_pos_right hlt hc
  linarith

lemma specFrameTimes_mem_window (d : ℚ) (n : ℕ) (hd : 0 < d) (hn : 2 ≤ n) :
    ∀ q ∈ specFrameTimes d n, (0.1 : ℚ) * d ≤ q ∧ q ≤ (0.9 : ℚ) * d := by
  have hn1 : (0 : ℚ) < (n : ℚ) - 1 := by
    have : (2 : ℚ) ≤ (n : ℚ) := by exact_mod_cast hn
    linarith
  have hc : (0 : ℚ) ≤ (0.8 : ℚ) * d / ((n : ℚ) - 1) := by
    apply le_of_lt
    apply div_pos _ hn1
    have : (0 : ℚ) < (0.8 : ℚ) := by norm_num
    exact mul_pos this hd
  intro q hq
  obtain ⟨i, hmem, rfl⟩ := List.mem_map.mp hq
  have hi : i < n := List.mem_range.mp hmem
  constructor
  · have : (0 : ℚ) ≤ (i : ℚ) * ((0.8 : ℚ) * d / ((n : ℚ) - 1)) :=
      mul_nonneg (Nat.cast_nonneg i) hc
    linarith
  · have hile : (i : ℚ) ≤ (n : ℚ) - 1 := by
      have : (i : ℚ) + 1 ≤ (n : ℚ) := by exact_mod_cast hi
      linarith
    have h1 : (i : ℚ) * ((0.8 : ℚ) * d / ((n : ℚ) - 1))
        ≤ ((n : ℚ) - 1) * ((0.8 : ℚ) * d / ((n : ℚ) - 1)) :=
      mul_le_mul_of_nonneg_right hile hc
    have h2 : ((n : ℚ) - 1) * ((0.8 : ℚ) * d / ((n : ℚ) - 1)) = (0.8 : ℚ) * d := by
      rw [mul_div_assoc']
      exact mul_div_cancel_left₀ _ (ne_of_gt hn1)
    rw [h2] at h1
    have h3 : (0.1 : ℚ) * d + (0.8 : ℚ) * d = (0.9 : ℚ) * d := by
      have e1 : (0.1 : ℚ) = 1 / 10 := by norm_num
      have e8 : (0.8 : ℚ) = 8 / 10 := by norm_num
      have e9 : (0.9 : ℚ) = 9 / 10 := by norm_num
      rw [e1, e8, e9]; ring
    linarith

lemma jmul_posInf_fin_zero : jmul .posInf (.fin 0) = .nan := by
  simp [jmul]

/-- C1: for every video source with finite positive duration `d` and every
`N ≥ 2`, the frame sampler returns exactly `N` samples, their recorded
timestamps are the requested seek times, those times match the spec formula
`t_i = 0.1·d + i·(0.8·d/(N−1))`, are strictly increasing, lie inside
`[0.1·d, 0.9·d]`, and for `d = 10`, `N = 5` they are exactly
`1.0, 3.0, 5.0, 7.0, 9.0`. -/
theorem frameSampler_spec (achieved : JSNum → JSNum) (render : JSNum → ℕ)
    (d : ℚ) (n : ℕ) (hd : 0 < d) (hn : 2 ≤ n) :
    (extractFramesFromVideo achieved render (.fin d) n).length = n ∧
    (extractFramesFromVideo achieved render (.fin d) n).map VideoFrame'.timestamp
        = frameTimesJS (.fin d) n ∧
    frameTimesJS (.fin d) n = (specFrameTimes d n).map JSNum.fin ∧
    List.Chain' (· < ·) (specFrameTimes d n) ∧
    (∀ q ∈ specFrameTimes d n, (0.1 : ℚ) * d ≤ q ∧ q ≤ (0.9 : ℚ) * d) ∧
    (d = 10 → n = 5 → frameTimesJS (.fin d) n
        = [.fin 1, .fin 3, .fin 5, .fin 7, .fin 9]) := by
  refine ⟨?_, ?_, frameTimesJS_eq_spec d n hn, specFrameTimes_chain_lt d n hd hn,
    specFrameTimes_mem_window d n hd hn, ?_⟩
  · simp [extractFramesFromVideo, frameTimesJS]
  · unfold extractFramesFromVideo
    rw [List.map_map]
    rw [show (VideoFrame'.timestamp ∘ fun time =>
        ({ data := render (achieved time), timestamp := time } : VideoFrame'))
      = fun t => t from rfl]
    exact List.map_id' _
  · rintro rfl rfl
    rw [frameTimesJS_eq_spec 10 5 (by norm_num)]
    norm_num [specFrameTimes, List.range_succ]

/-- Witness for `frameSampler_spec` at `d = 10`, `N = 5` with an identity
seek and a constant renderer. -/
theorem frameSampler_spec_witness :
    (0 : ℚ) < 10 ∧ 2 ≤ 5 ∧
    (extractFramesFromVideo (fun t => t) (fun _ => 0) (.fin 10) 5).map VideoFrame'.timestamp
        = [.fin 1, .fin 3, .fin 5, .fin 7, .fin 9] := by
  have h := frameSampler_spec (fun t => t) (fun _ => 0) 10 5 (by norm_num) (by norm_num)
  exact ⟨by norm_num, by norm_num, by rw [h.2.1]; exact h.2.2.2.2.2 rfl rfl⟩

/-- C10: with a finite positive duration, every requested timestamp is finite
when `numFrames ≥ 2`; for `numFrames = 1` the interval computation divides by
zero, `interval` becomes `+∞`, and the single requested timestamp is
`start + ∞·0 = NaN`, which is not a finite number. -/
theorem frameTimes_finiteness (d : ℚ) (hd : 0 < d) :
    (∀ n, 2 ≤ n → ((frameTimesJS (.fin d) n).all JSNum.isFinite) = true) ∧
    frameTimesJS (.fin d) 1 = [JSNum.nan] := by
  constructor
  · intro n hn
    rw [frameTimesJS_eq_spec d n hn]
    simp [JSNum.isFinite]
  · have hu : (0 : ℚ) < d * (0.9 : ℚ) + -(d * (0.1 : ℚ)) := by
      have h9 : (0.9 : ℚ) = 9 / 10 := by norm_num
      have h1 : (0.1 : ℚ) = 1 / 10 := by norm_num
      rw [h9, h1]; linarith
    have hint : jdiv (jsub (jmul (.fin d) (.fin (0.9 : ℚ))) (jmul (.fin d) (.fin (0.1 : ℚ))))
        (jsub (.fin (((1 : ℕ) : ℚ))) (.fin 1)) = .posInf := by
      simp only [jmul, jsub, jneg, jadd, jdiv, Nat.cast_one]
      rw [if_pos (by norm_num : (1 : ℚ) + -1 = 0)]
      rw [if_neg (ne_of_gt hu), if_pos hu]
    show (List.range 1).map (fun (i : ℕ) =>
        jadd (jmul (.fin d) (.fin (0.1 : ℚ)))
          (jmul (jdiv (jsub (jmul (.fin d) (.fin (0.9 : ℚ))) (jmul (.fin d) (.fin (0.1 : ℚ))))
            (jsub (.fin (((1 : ℕ) : ℚ))) (.fin 1))) (.fin (i : ℚ)))) = [JSNum.nan]
    rw [hint, show List.range 1 = [0] from rfl]
    simp only [List.map_cons, List.map_nil, Nat.cast_zero]
    rw [jmul_posInf_fin_zero]
    rfl

/-!
WAV encoding (src/services/geminiService.ts, lines 56-149).

`bufferToWav` writes sequentially through a `DataView`: each `setUint16` /
`setUint32` appends its little-endian bytes at the write position, so the
produced buffer is exactly the concatenation of the written chunks.
`setUint16`/`setUint32`/`setInt16` store the value modulo 2^16 / 2^32 / 2^16;
the byte lists below encode exactly those low bytes.
-/

/-- Little-endian bytes of a 16-bit write (`view.setUint16(pos, data, true)`). -/
def u16LE (n : ℕ) : List ℕ := [n % 256, n / 256 % 256]

/-- Little-endian bytes of a 32-bit write (`view.setUint32(pos, data, true)`). -/
def u32LE (n : ℕ) : List ℕ :=
  [n % 256, n / 256 % 256, n / 2 ^ 16 % 256, n / 2 ^ 24 % 256]

/-- Decoded audio, mirroring the `AudioBuffer` fields the code reads:
`numberOfChannels`, `sampleRate`, `length` (sample frames) and
`getChannelData(i)` as a list of float samples (exact rationals here). -/
structure AudioBuffer' where
  numberOfChannels : ℕ
  sampleRate : ℕ
  length : ℕ
  channels : List (List ℚ)
deriving DecidableEq, Repr

/-- `channels[i][offset]` with out-of-range reads defaulting to a zero sample
(the code never reads out of range: `len ≤ abuffer.length`). -/
def sampleAt (ab : AudioBuffer') (ch off : ℕ) : ℚ :=
  (ab.channels.getD ch []).getD off 0

/-- Truncation toward zero, the effect of `|0` on a value inside int32 range. -/
def ratTrunc (q : ℚ) : ℤ := if 0 ≤ q then ⌊q⌋ else -⌊-q⌋

/-- The clamp `Math.max(-1, Math.min(1, s))`. -/
def clampSample (q : ℚ) : ℚ := max (-1) (min 1 q)

/-- The scaling line `(0.5 + sample < 0 ? sample * 32768 : sample * 32767)|0`
applied to the clamped sample. -/
def scaleSample (s : ℚ) : ℤ :=
  if (0.5 : ℚ) + s < 0 then ratTrunc (s * 32768) else ratTrunc (s * 32767)

/-- Little-endian bytes stored by `view.setInt16(pos, z, true)`: the value's
low 16 bits in two's complement. -/
def int16LE (z : ℤ) : List ℕ := u16LE (z.emod 65536).toNat

/-- The interleaved data section of `bufferToWav`: the `while (pos < length)`
loop writes, for each frame `offset < len`, one encoded 16-bit sample per
channel. -/
def wavData (ab : AudioBuffer') (len : ℕ) : List ℕ :=
  ((List.range len).map (fun off =>
    ((List.range ab.numberOfChannels).map (fun ch =>
      int16LE (scaleSample (clampSample (sampleAt ab ch off))))).flatten)).flatten

/-- Embeds `bufferToWav(abuffer, len)`: the header writes in source order
(`length` is the total byte length `len * numOfChan * 2 + 44`; the data-chunk
size argument is `length - pos - 4` with `pos = 40`), followed by the
interleaved sample data. -/
def bufferToWav (ab : AudioBuffer') (len : ℕ) : List ℕ :=
  let numOfChan := ab.numberOfChannels
  let totalLength := len * numOfChan * 2 + 44
  u32LE 0x46464952 ++
  u32LE (totalLength - 8) ++
  u32LE 0x45564157 ++
  u32LE 0x20746d66 ++
  u32LE 16 ++
  u16LE 1 ++
  u16LE numOfChan ++
  u32LE ab.sampleRate ++
  u32LE (ab.sampleRate * 2 * numOfChan) ++
  u16LE (numOfChan * 2) ++
  u16LE 16 ++
  u32LE 0x61746164 ++
  u32LE (totalLength - 40 - 4) ++
  wavData ab len

/-- Follows the spec's words (§6): the 44-byte canonical WAV header,
`"RIFF" · chunkSize=dataSize+36 · "WAVE" · "fmt " · 16 · format=1 ·
numChannels · sampleRate · byteRate=sampleRate·numChannels·2 ·
blockAlign=numChannels·2 · bitsPerSample=16 · "data" · dataSize`,
all multi-byte fields little-endian.  Compared with the source-derived
`bufferToWav`. -/
def canonicalWavHeader (numChannels sampleRate dataSize : ℕ) : List ℕ :=
  [0x52, 0x49, 0x46, 0x46] ++
  u32LE (dataSize + 36) ++
  [0x57, 0x41, 0x56, 0x45] ++
  [0x66, 0x6d, 0x74, 0x20] ++
  u32LE 16 ++
  u16LE 1 ++
  u16LE numChannels ++
  u32LE sampleRate ++
  u32LE (sampleRate * numChannels * 2) ++
  u16LE (numChannels * 2) ++
  u16LE 16 ++
  [0x64, 0x61, 0x74, 0x61] ++
  u32LE dataSize

/-- Embeds `extractAudioFromVideo`.  The fetch/decode of the source URL is
abstracted as its outcome, an `Except`: `.error` for any exception thrown by
`fetch`/`arrayBuffer`/`decodeAudioData` (all caught by the surrounding
`try`), `.ok` for a decoded buffer.  On success the sample count is capped at
`min(audioBuffer.length, 60 * audioBuffer.sampleRate)` and the buffer is
encoded with `bufferToWav` (the base64 transport encoding is not modelled;
the WAV bytes are returned directly). -/
def extractAudioFromVideo (decoded : Except Unit AudioBuffer') : Option (List ℕ) :=
  match decoded with
  | .error _ => none
  | .ok audioBuffer =>
      let maxDuration := 60
      let samplesToKeep := min audioBuffer.length (maxDuration * audioBuffer.sampleRate)
      some (bufferToWav audioBuffer samplesToKeep)

lemma u32LE_riff : u32LE 0x46464952 = [0x52, 0x49, 0x46, 0x46] := by decide

lemma u32LE_wave : u32LE 0x45564157 = [0x57, 0x41, 0x56, 0x45] := by decide

lemma u32LE_fmt : u32LE 0x20746d66 = [0x66, 0x6d, 0x74, 0x20] := by decide

lemma u32LE_data : u32LE 0x61746164 = [0x64, 0x61, 0x74, 0x61] := by decide

/-- C2: the encoder's output begins with the exact 44-byte canonical WAV
header for `dataSize = 2·numChannels·len`, followed by the interleaved,
clamped, scaled little-endian signed 16-bit samples. -/
theorem bufferToWav_layout (ab : AudioBuffer') (len : ℕ) :
    bufferToWav ab len =
      canonicalWavHeader ab.numberOfChannels ab.sampleRate (2 * ab.numberOfChannels * len) ++
        wavData ab len := by
  simp only [bufferToWav, canonicalWavHeader]
  have hmul : len * ab.numberOfChannels * 2 = 2 * ab.numberOfChannels * len := by ring
  have h1 : len * ab.numberOfChannels * 2 + 44 - 8 = 2 * ab.numberOfChannels * len + 36 := by
    rw [hmul]; omega
  have h2 : len * ab.numberOfChannels * 2 + 44 - 40 - 4 = 2 * ab.numberOfChannels * len := by
    rw [hmul]; omega
  have h3 : ab.sampleRate * 2 * ab.numberOfChannels
      = ab.sampleRate * ab.numberOfChannels * 2 := by ring
  rw [h1, h2, h3, u32LE_riff, u32LE_wave, u32LE_fmt, u32LE_data]

lemma int16LE_length (z : ℤ) : (int16LE z).length = 2 := rfl

lemma wavData_length (ab : AudioBuffer') (len : ℕ) :
    (wavData ab len).length = 2 * ab.numberOfChannels * len := by
  unfold wavData
  rw [List.length_flatten, List.map_map]
  have hinner : ∀ off : ℕ,
      (((List.range ab.numberOfChannels).map (fun ch =>
        int16LE (scaleSample (clampSample (sampleAt ab ch off))))).flatten).length
      = 2 * ab.numberOfChannels := by
    intro off
    rw [List.length_flatten, List.map_map]
    have : (List.length ∘ fun ch => int16LE (scaleSample (clampSample (sampleAt ab ch off))))
        = fun _ => 2 := by
      funext ch; simp [Function.comp, int16LE_length]
    rw [this, List.map_const', List.sum_replicate, List.length_range, smul_eq_mul]
    ring
  have : (List.length ∘ fun off =>
      ((List.range ab.numberOfChannels).map (fun ch =>
        int16LE (scaleSample (clampSample (sampleAt ab ch off))))).flatten)
      = fun _ => 2 * ab.numberOfChannels := by
    funext off; exact hinner off
  rw [this, List.map_const', List.sum_replicate, List.length_range, smul_eq_mul]
  ring

lemma bufferToWav_dataSize (ab : AudioBuffer') (len : ℕ) :
    ((bufferToWav ab len).drop 40).take 4 = u32LE (len * ab.numberOfChannels * 2) := by
  simp only [bufferToWav]
  have h2 : len * ab.numberOfChannels * 2 + 44 - 40 - 4 = len * ab.numberOfChannels * 2 := by
    omega
  rw [h2]
  simp [u32LE, u16LE]

/-- C3: for every decoded buffer the encoder writes exactly
`min(totalSamples, 60·sampleRate)` sample frames into the data chunk, the
header's dataSize field encodes `2·numChannels·numSamples`, and with the
pipeline's fixed 16 kHz decode rate `numSamples ≤ 60·16000`, so the encoded
duration never exceeds 60 seconds. -/
theorem extractAudio_durationCap (ab : AudioBuffer') (h16 : ab.sampleRate = 16000) :
    extractAudioFromVideo (.ok ab)
        = some (bufferToWav ab (min ab.length (60 * ab.sampleRate))) ∧
    (wavData ab (min ab.length (60 * ab.sampleRate))).length
        = 2 * ab.numberOfChannels * min ab.length (60 * ab.sampleRate) ∧
    ((bufferToWav ab (min ab.length (60 * ab.sampleRate))).drop 40).take 4
        = u32LE (min ab.length (60 * ab.sampleRate) * ab.numberOfChannels * 2) ∧
    min ab.length (60 * ab.sampleRate) ≤ 60 * 16000 ∧
    ((min ab.length (60 * ab.sampleRate) : ℚ)) / (ab.sampleRate : ℚ) ≤ 60 := by
  refine ⟨rfl, wavData_length ab _, bufferToWav_dataSize ab _, ?_, ?_⟩
  · calc min ab.length (60 * ab.sampleRate) ≤ 60 * ab.sampleRate := min_le_right _ _
      _ = 60 * 16000 := by rw [h16]
  · have hsr : (0 : ℚ) < (ab.sampleRate : ℚ) := by rw [h16]; norm_num
    rw [div_le_iff₀ hsr]
    exact_mod_cast min_le_right ab.length (60 * ab.sampleRate)

/-- Concrete decoded buffer used as witness input: 3 mono frames at 16 kHz. -/
def abWitness : AudioBuffer' := ⟨1, 16000, 3, [[1/2, -2, 1/4]]⟩

/-- Witness for `extractAudio_durationCap` at `abWitness`. -/
theorem extractAudio_durationCap_witness :
    abWitness.sampleRate = 16000 ∧
    min abWitness.length (60 * abWitness.sampleRate) ≤ 60 * 16000 ∧
    extractAudioFromVideo (.ok abWitness)
        = some (bufferToWav abWitness (min abWitness.length (60 * abWitness.sampleRate))) := by
  have h := extractAudio_durationCap abWitness rfl
  exact ⟨rfl, h.2.2.2.1, h.1⟩

/-!
Part assembly of `analyzeIncidentStream` (src/services/geminiService.ts,
lines 157-202).  Text payloads carry fixed label strings whose exact wording
is irrelevant to the claims; they are abbreviated here.  An image part holds
a frame's compressed data, an audio part the encoded WAV payload.
-/

/-- One element of `sources`: a named video with its extracted frames. -/
structure SourceData' where
  name : String
  frames : List VideoFrame'
deriving DecidableEq

/-- One entry of the `parts` array sent to the reasoning collaborator. -/
inductive GenPart where
  | audioPart (wav : List ℕ)
  | imagePart (data : ℕ)
  | textPart (s : String)
deriving DecidableEq

/-- Membership test for the audio inline-data part. -/
def GenPart.isAudio : GenPart → Bool
  | .audioPart _ => true
  | _ => false

/-- Embeds the parts assembly of `analyzeIncidentStream`: if audio extraction
produced a payload it is pushed first with its note, then the evidence label,
then per source a header followed by `[timestamp label, frame image]` pairs,
then the synthesis instruction and the user prompt. -/
def buildParts (audio : Option (List ℕ)) (sources : List SourceData')
    (userPrompt : String) : List GenPart :=
  (match audio with
   | some wav => [GenPart.audioPart wav, GenPart.textPart "audio note"]
   | none => []) ++
  [GenPart.textPart "evidence label"] ++
  (sources.map (fun source =>
    GenPart.textPart source.name ::
      (source.frames.map (fun frame =>
        [GenPart.textPart "frame timestamp", GenPart.imagePart frame.data])).flatten)).flatten ++
  [GenPart.textPart "synthesis instruction", GenPart.textPart userPrompt]

/-- C8: a fetch/decode failure makes the extractor return the no-audio value
(`none`), never an error; the parts payload built from it contains no audio
part; and attaching audio only prepends parts — the rest of the payload is
identical, so the analysis proceeds audio-less on failure. -/
theorem audioFailure_nonfatal (e : Unit) (sources : List SourceData') (userPrompt : String) :
    extractAudioFromVideo (.error e) = none ∧
    ((buildParts (extractAudioFromVideo (.error e)) sources userPrompt).all
      (fun p => !p.isAudio)) = true ∧
    (∀ wav, buildParts (some wav) sources userPrompt
        = GenPart.audioPart wav :: GenPart.textPart "audio note" ::
            buildParts none sources userPrompt) := by
  refine ⟨rfl, ?_, fun wav => rfl⟩
  rw [List.all_eq_true]
  intro p hp
  simp only [extractAudioFromVideo] at hp
  simp only [buildParts, List.nil_append, List.mem_append, List.mem_cons,
    List.not_mem_nil, or_false, List.mem_flatten, List.mem_map] at hp
  rcases hp with (rfl | hmem) | (rfl | rfl)
  · rfl
  · obtain ⟨l, ⟨a, ha, hl⟩, hp⟩ := hmem
    subst hl
    simp only [List.mem_cons] at hp
    rcases hp with rfl | hp
    · rfl
    · rcases List.mem_flatten.mp hp with ⟨l', hl', hp'⟩
      rcases List.mem_map.mp hl' with ⟨frame, hf, rfl⟩
      simp only [List.mem_cons, List.not_mem_nil, or_false] at hp'
      rcases hp' with rfl | rfl
      · rfl
      · rfl
  · rfl
  · rfl

/-!
Canvas interaction of `AnalysisDashboard` (src/components/AnalysisDashboard.tsx).
The component state slice touched by the pointer handlers is a record; each
handler is a state transition.  The canvas/video refs are modelled as always
present (the component renders them unconditionally), and `getContext('2d')`
as succeeding.
-/

/-- A point in the canvas's intrinsic (native video) pixel space. -/
structure Pt where
  x : ℚ
  y : ℚ
deriving DecidableEq, Repr

/-- The pointer-event fields the handlers read. -/
structure MouseEv where
  clientX : ℚ
  clientY : ℚ
  movementX : ℚ
  movementY : ℚ
deriving DecidableEq, Repr

/-- A committed freehand stroke (`{points, color}`). -/
structure Stroke where
  points : List Pt
  color : String
deriving DecidableEq, Repr

/-- The crop captured by `captureRoi`: the rectangle in native video pixels
with the active contrast filter baked in, standing for the produced JPEG. -/
structure RoiCrop where
  x : ℚ
  y : ℚ
  w : ℚ
  h : ℚ
  contrast : ℚ
deriving DecidableEq, Repr

/-- The dashboard's `toolMode`: `'view' | 'draw' | 'scan'`. -/
inductive TMode where
  | view
  | draw
  | scan
deriving DecidableEq, Repr

/-- The slice of `AnalysisDashboard` state read and written by the canvas
pointer handlers, plus the geometry exposed by the refs: `canvasW/H` are the
canvas's intrinsic `width`/`height`, `rect*` its `getBoundingClientRect`,
`videoW/H` the video's native dimensions. -/
structure DashState where
  toolMode : TMode
  zoom : ℚ
  pan : Pt
  contrast : ℚ
  isPanning : Bool
  isDrawing : Bool
  currentPath : List Pt
  annotations : List Stroke
  annotationColor : String
  isSelectingRoi : Bool
  roiSelection : Option (Pt × Pt)
  roiImage : Option RoiCrop
  roiModalOpen : Bool
  rectLeft : ℚ
  rectTop : ℚ
  rectW : ℚ
  rectH : ℚ
  canvasW : ℚ
  canvasH : ℚ
  videoW : ℚ
  videoH : ℚ
deriving DecidableEq, Repr

/-- Embeds `getCoords` (AnalysisDashboard.tsx, lines 226-233):
`sx = c.width / r.width`, `sy = c.height / r.height`,
`{x: (clientX - r.left) * sx, y: (clientY - r.top) * sy}`. -/
def getCoords (s : DashState) (e : MouseEv) : Pt :=
  { x := (e.clientX - s.rectLeft) * (s.canvasW / s.rectW),
    y := (e.clientY - s.rectTop) * (s.canvasH / s.rectH) }

/-- Embeds the canvas sizing effect (lines 347-352):
`canvas.width = video.videoWidth || 1280` — the falsy width `0` falls back. -/
def canvasIntrinsicW (videoWidth : ℚ) : ℚ := if videoWidth = 0 then 1280 else videoWidth

/-- Embeds `canvas.height = video.videoHeight || 720`. -/
def canvasIntrinsicH (videoHeight : ℚ) : ℚ := if videoHeight = 0 then 720 else videoHeight

/-- Embeds `handleMouseDown` (lines 235-246). -/
def handleMouseDown (s : DashState) (e : MouseEv) : DashState :=
  if s.toolMode = TMode.draw then
    { s with isDrawing := true, currentPath := [getCoords s e] }
  else if s.toolMode = TMode.scan then
    let coords := getCoords s e
    { s with isSelectingRoi := true, roiSelection := some (coords, coords) }
  else if 1 < s.zoom then
    { s with isPanning := true }
  else s

/-- Embeds `handleMouseMove` (lines 248-256). -/
def handleMouseMove (s : DashState) (e : MouseEv) : DashState :=
  if s.toolMode = TMode.draw ∧ s.isDrawing = true then
    { s with currentPath := s.currentPath ++ [getCoords s e] }
  else if s.toolMode = TMode.scan ∧ s.isSelectingRoi = true ∧ s.roiSelection.isSome then
    { s with roiSelection := s.roiSelection.map (fun sel => (sel.1, getCoords s e)) }
  else if s.isPanning = true ∧ 1 < s.zoom then
    { s with pan := { x := s.pan.x + e.movementX / s.zoom,
                      y := s.pan.y + e.movementY / s.zoom } }
  else s

/-- Embeds `captureRoi` (lines 272-297): scales the selection to native video
pixels, rejects rectangles under 10×10, otherwise records the crop, opens the
modal and clears the selection. -/
def captureRoi (s : DashState) : DashState :=
  match s.roiSelection with
  | none => s
  | some sel =>
      let scaleX := s.videoW / s.canvasW
      let scaleY := s.videoH / s.canvasH
      let x := min sel.1.x sel.2.x * scaleX
      let y := min sel.1.y sel.2.y * scaleY
      let w := |sel.2.x - sel.1.x| * scaleX
      let h := |sel.2.y - sel.1.y| * scaleY
      if w < 10 ∨ h < 10 then s
      else
        { s with
            roiImage := some { x := x, y := y, w := w, h := h, contrast := s.contrast },
            roiModalOpen := true,
            roiSelection := none }

/-- Embeds `handleMouseUp` (lines 258-270): in draw mode a nonempty path is
committed to the annotation list; in scan mode the selection ends, the crop
is captured and the tool mode returns to view; panning always ends. -/
def handleMouseUp (s : DashState) : DashState :=
  let s1 :=
    if s.toolMode = TMode.draw ∧ s.isDrawing = true then
      { s with
          annotations :=
            if 0 < s.currentPath.length then
              s.annotations ++ [{ points := s.currentPath, color := s.annotationColor }]
            else s.annotations,
          currentPath := [],
          isDrawing := false }
    else if s.toolMode = TMode.scan ∧ s.isSelectingRoi = true ∧ s.roiSelection.isSome then
      let s2 := captureRoi { s with isSelectingRoi := false }
      { s2 with toolMode := TMode.view }
    else s
  { s1 with isPanning := false }

/-- The viewport container wires `onMouseLeave={handleMouseUp}` (line 673). -/
def handleMouseLeave (s : DashState) : DashState := handleMouseUp s

/-- The React state setter `setToolMode(m)`. -/
def setToolMode (s : DashState) (m : TMode) : DashState := { s with toolMode := m }

/-- The annotation-tool toggle button (lines 726-732):
`setToolMode(toolMode === 'draw' ? 'view' : 'draw')`. -/
def clickDrawTool (s : DashState) : DashState :=
  setToolMode s (if s.toolMode = TMode.draw then TMode.view else TMode.draw)

/-- A concrete dashboard state used by witnesses and counterexamples: a
1280×720 video displayed at 640×360, freshly initialised tool state. -/
def baseState : DashState where
  toolMode := TMode.view
  zoom := 1
  pan := ⟨0, 0⟩
  contrast := 100
  isPanning := false
  isDrawing := false
  currentPath := []
  annotations := []
  annotationColor := "#ef4444"
  isSelectingRoi := false
  roiSelection := none
  roiImage := none
  roiModalOpen := false
  rectLeft := 0
  rectTop := 0
  rectW := 640
  rectH := 360
  canvasW := 1280
  canvasH := 720
  videoW := 1280
  videoH := 720

/-- C5 counterexample: a zero-movement pointer-down/up in draw mode persists
a single-point stroke in the committed annotation list — `handleMouseUp`
commits whenever the path is nonempty, and `handleMouseDown` already records
the click point. -/
theorem zeroGesture_draw_persists_stroke :
    (handleMouseUp (handleMouseDown { baseState with toolMode := TMode.draw }
        ⟨10, 10, 0, 0⟩)).annotations
      = [{ points := [⟨20, 20⟩], color := "#ef4444" }] ∧
    (handleMouseUp (handleMouseDown { baseState with toolMode := TMode.draw }
        ⟨10, 10, 0, 0⟩)).annotations
      ≠ ({ baseState with toolMode := TMode.draw }).annotations := by
  constructor
  · norm_num [handleMouseUp, handleMouseDown, getCoords, baseState]
  · norm_num [handleMouseUp, handleMouseDown, baseState]

/-- C5 (amended): a zero-movement pointer-down/up in draw mode commits a
single-point stroke consisting of the mapped click point; in scan mode it
produces no RegionOfInterest — the zero-size rectangle is rejected by the
10-pixel minimum. -/
theorem zeroGesture_amended (s : DashState) (e : MouseEv) :
    (s.toolMode = TMode.draw →
      (handleMouseUp (handleMouseDown s e)).annotations
        = s.annotations ++ [{ points := [getCoords s e], color := s.annotationColor }]) ∧
    (s.toolMode = TMode.scan →
      (handleMouseUp (handleMouseDown s e)).roiImage = s.roiImage ∧
      (handleMouseUp (handleMouseDown s e)).roiModalOpen = s.roiModalOpen) := by
  constructor
  · intro h
    simp [handleMouseDown, handleMouseUp, h]
  · intro h
    simp [handleMouseDown, handleMouseUp, captureRoi, h]

/-- Witness for `zeroGesture_amended` in scan mode and draw mode at
`baseState`. -/
theorem zeroGesture_amended_witness :
    ({ baseState with toolMode := TMode.scan }).toolMode = TMode.scan ∧
    (handleMouseUp (handleMouseDown { baseState with toolMode := TMode.scan }
        ⟨10, 10, 0, 0⟩)).roiImage = ({ baseState with toolMode := TMode.scan }).roiImage ∧
    (handleMouseUp (handleMouseDown { baseState with toolMode := TMode.draw }
        ⟨10, 10, 0, 0⟩)).annotations
      = ({ baseState with toolMode := TMode.draw }).annotations ++
          [{ points := [getCoords { baseState with toolMode := TMode.draw } ⟨10, 10, 0, 0⟩],
             color := ({ baseState with toolMode := TMode.draw }).annotationColor }] :=
  ⟨rfl, ((zeroGesture_amended _ _).2 rfl).1, (zeroGesture_amended _ _).1 rfl⟩

/-- C6 counterexample: starting a stroke in draw mode, dragging, then moving
the pointer off the canvas surface toward the mode controls fires
`onMouseLeave = handleMouseUp`, which commits the partial stroke; the
subsequent toggle to view leaves it in the committed annotation list. -/
theorem modeSwitch_midDrag_commits :
    (clickDrawTool (handleMouseLeave (handleMouseMove
        (handleMouseDown { baseState with toolMode := TMode.draw } ⟨10, 10, 0, 0⟩)
        ⟨20, 20, 0, 0⟩))).toolMode = TMode.view ∧
    (clickDrawTool (handleMouseLeave (handleMouseMove
        (handleMouseDown { baseState with toolMode := TMode.draw } ⟨10, 10, 0, 0⟩)
        ⟨20, 20, 0, 0⟩))).annotations
      = [{ points := [⟨20, 20⟩, ⟨40, 40⟩], color := "#ef4444" }] := by
  constructor
  · norm_num [clickDrawTool, setToolMode, handleMouseLeave, handleMouseUp, handleMouseMove,
      handleMouseDown, baseState]
  · norm_num [clickDrawTool, setToolMode, handleMouseLeave, handleMouseUp, handleMouseMove,
      handleMouseDown, getCoords, baseState]

/-- C6 (amended): switching the tool mode by itself neither commits nor
discards in-flight stroke state — the annotation list, the open path and the
drawing flag are untouched — but on the path where the pointer leaves the
canvas surface to reach the mode controls, the leave handler runs the
pointer-up logic and commits the in-flight stroke to the committed list
instead of discarding it. -/
theorem modeSwitch_discipline (s : DashState) (m : TMode)
    (hmode : s.toolMode = TMode.draw) (hdrawing : s.isDrawing = true)
    (hpath : s.currentPath ≠ []) :
    (setToolMode s m).annotations = s.annotations ∧
    (setToolMode s m).currentPath = s.currentPath ∧
    (setToolMode s m).isDrawing = s.isDrawing ∧
    (handleMouseLeave s).annotations
      = s.annotations ++ [{ points := s.currentPath, color := s.annotationColor }] := by
  refine ⟨rfl, rfl, rfl, ?_⟩
  have hlen : 0 < s.currentPath.length := List.length_pos.mpr hpath
  simp [handleMouseLeave, handleMouseUp, hmode, hdrawing, hlen]

/-- A mid-drag draw state: drawing flag set with one recorded point. -/
def midDragState : DashState :=
  { baseState with toolMode := TMode.draw, isDrawing := true, currentPath := [⟨20, 20⟩] }

/-- Witness for `modeSwitch_discipline`: a mid-drag state switched to view. -/
theorem modeSwitch_discipline_witness :
    (setToolMode midDragState TMode.view).annotations = midDragState.annotations ∧
    (handleMouseLeave midDragState).annotations
      = midDragState.annotations ++ [{ points := [⟨20, 20⟩], color := "#ef4444" }] := by
  have h := modeSwitch_discipline midDragState TMode.view rfl rfl (by decide)
  exact ⟨h.1, h.2.2.2⟩

/-- C9: every pointer-up that ends a scan-mode rectangle selection sets the
tool mode to view unconditionally; when the selection is below the 10×10
native-pixel minimum the crop is rejected — no RegionOfInterest is produced
and no modal opens — yet the session still leaves scan mode. -/
theorem scanMouseUp_returns_view (s : DashState) (sel : Pt × Pt)
    (hmode : s.toolMode = TMode.scan) (hsel : s.isSelectingRoi = true)
    (hroi : s.roiSelection = some sel) :
    (handleMouseUp s).toolMode = TMode.view ∧
    ((|sel.2.x - sel.1.x| * (s.videoW / s.canvasW) < 10 ∨
      |sel.2.y - sel.1.y| * (s.videoH / s.canvasH) < 10) →
      (handleMouseUp s).roiImage = s.roiImage ∧
      (handleMouseUp s).roiModalOpen = s.roiModalOpen) := by
  constructor
  · simp only [handleMouseUp, hmode, hsel, hroi]
    simp [captureRoi]
  · intro hsmall
    simp only [handleMouseUp, hmode, hsel, hroi]
    simp [captureRoi, hroi]
    rw [if_pos hsmall]
    exact ⟨rfl, rfl⟩

/-- A scan-mode state with a selection rectangle of 1×1 canvas pixels. -/
def tinyScanState : DashState :=
  { baseState with
      toolMode := TMode.scan,
      isSelectingRoi := true,
      roiSelection := some (⟨0, 0⟩, ⟨1, 1⟩) }

/-- Witness for `scanMouseUp_returns_view` at `tinyScanState`, whose 2×2
native-pixel rectangle is below the minimum. -/
theorem scanMouseUp_returns_view_witness :
    (handleMouseUp tinyScanState).toolMode = TMode.view ∧
    (handleMouseUp tinyScanState).roiImage = tinyScanState.roiImage := by
  have h := scanMouseUp_returns_view tinyScanState (⟨0, 0⟩, ⟨1, 1⟩) rfl rfl
    (by simp [tinyScanState, baseState])
  refine ⟨h.1, (h.2 ?_).1⟩
  left
  norm_num [tinyScanState, baseState]

/-- C7: for a displayed video with known native dimensions, any positive CSS
display size, and the canvas sized to the video's native resolution by the
sizing effect, a click at the exact visual center of the display maps through
`getCoords` to the native center `(videoW/2, videoH/2)`. -/
theorem getCoords_center (s : DashState)
    (hw : s.canvasW = canvasIntrinsicW s.videoW) (hh : s.canvasH = canvasIntrinsicH s.videoH)
    (hvw : s.videoW ≠ 0) (hvh : s.videoH ≠ 0)
    (hrw : s.rectW ≠ 0) (hrh : s.rectH ≠ 0) :
    getCoords s ⟨s.rectLeft + s.rectW / 2, s.rectTop + s.rectH / 2, 0, 0⟩
      = ⟨s.videoW / 2, s.videoH / 2⟩ := by
  rw [canvasIntrinsicW, if_neg hvw] at hw
  rw [canvasIntrinsicH, if_neg hvh] at hh
  unfold getCoords
  rw [hw, hh]
  simp only [Pt.mk.injEq]
  constructor
  · field_simp
    ring
  · field_simp
    ring

/-- Witness for `getCoords_center` at `baseState` (1280×720 video shown at
640×360): the click at the displayed center maps to the native center. -/
theorem getCoords_center_witness :
    getCoords baseState
        ⟨baseState.rectLeft + baseState.rectW / 2, baseState.rectTop + baseState.rectH / 2, 0, 0⟩
      = ⟨baseState.videoW / 2, baseState.videoH / 2⟩ :=
  getCoords_center baseState (by norm_num [baseState, canvasIntrinsicW])
    (by norm_num [baseState, canvasIntrinsicH]) (by norm_num [baseState])
    (by norm_num [baseState]) (by norm_num [baseState]) (by norm_num [baseState])

/-- The spec's tool-mode set (§4.4), including `calibrate` and `measure`,
which have no counterpart in the repository's source tree. -/
inductive SpecToolMode where
  | view
  | draw
  | scan
  | calibrate
  | measure
deriving DecidableEq, Repr

/-- Calibration session state: the active mode and the derived scale factor
(pixels per meter) of the at-most-one active CalibrationReference. -/
structure CalibSession where
  mode : SpecToolMode
  scaleFactor : Option ℚ
deriving DecidableEq, Repr

/-- Modelled from the spec: the CalibrationEngine (§4.6) is absent from
`src/` — the dashboard only implements view/draw/scan — so its pointer-up
commit is modelled from the spec's words: a line below the 5px minimum is
discarded; the prompted real-world distance (`none` for non-numeric input)
is discarded when non-numeric or ≤ 0, staying in `calibrate`; otherwise
`scaleFactor = pixelLength / distance` replaces any existing reference and
the mode transitions to `measure`. -/
def commitCalibration (s : CalibSession) (pixelLength : ℚ) (distance : Option ℚ) :
    CalibSession :=
  if pixelLength < 5 then s
  else
    match distance with
    | none => s
    | some dist =>
        if dist ≤ 0 then s
        else { mode := SpecToolMode.measure, scaleFactor := some (pixelLength / dist) }

/-- Modelled from the spec: the MeasurementEngine (§4.7) is absent from
`src/`; it converts a drawn line to `realLength = pixelLength / scaleFactor`. -/
def measureRealLength (scaleFactor pixelLength : ℚ) : ℚ := pixelLength / scaleFactor

/-- C4: a calibration line of pixel length `L` above the 5px minimum with
declared distance `D > 0` yields `scaleFactor = L/D` and transitions the
mode to `measure`; every subsequent measurement line of pixel length `L2`
yields `realLength = L2·D/L`. -/
theorem calibration_scale (s : CalibSession) (L D : ℚ) (hL : 5 < L) (hD : 0 < D) :
    (commitCalibration s L (some D)).mode = SpecToolMode.measure ∧
    (commitCalibration s L (some D)).scaleFactor = some (L / D) ∧
    (∀ L2 : ℚ, measureRealLength (L / D) L2 = L2 * D / L) := by
  have h5 : ¬(L < 5) := by linarith
  have hD' : ¬(D ≤ 0) := by linarith
  refine ⟨?_, ?_, ?_⟩
  · simp [commitCalibration, h5, hD']
  · simp [commitCalibration, h5, hD']
  · intro L2
    unfold measureRealLength
    rw [div_div_eq_mul_div]

/-- Witness for `calibration_scale`: `L = 10`, `D = 2`, measured `L2 = 7`. -/
theorem calibration_scale_witness :
    (5 : ℚ) < 10 ∧ (0 : ℚ) < 2 ∧
    (commitCalibration ⟨SpecToolMode.calibrate, none⟩ 10 (some 2)).mode
        = SpecToolMode.measure ∧
    (commitCalibration ⟨SpecToolMode.calibrate, none⟩ 10 (some 2)).scaleFactor
        = some 5 ∧
    measureRealLength ((10 : ℚ) / 2) 7 = 7 * 2 / 10 := by
  have h := calibration_scale ⟨SpecToolMode.calibrate, none⟩ 10 2 (by norm_num) (by norm_num)
  refine ⟨by norm_num, by norm_num, h.1, ?_, h.2.2 7⟩
  rw [h.2.1]
  norm_num

/-- Witness for `frameTimes_finiteness` at `d = 10`. -/
theorem frameTimes_finiteness_witness :
    (0 : ℚ) < 10 ∧
    ((frameTimesJS (.fin 10) 5).all JSNum.isFinite) = true ∧
    frameTimesJS (.fin 10) 1 = [JSNum.nan] := by
  have h := frameTimes_finiteness 10 (by norm_num)
  exact ⟨by norm_num, h.1 5 (by norm_num), h.2⟩
